import Mathlib

/-!
Verification development for the Nebula-KTV backend core:
the HTTP Range parser (`src/backend/app/api/stream.py`), the media asset
registry (`src/backend/{app,worker}/services/media_asset_service.py`), and
the song processing lifecycle (`src/backend/worker/tasks/process_song.py`).

Python strings are modelled as `String`/`List Char`, machine integers as
`Int`/`Nat` (Python integers are unbounded, so no modular wrap is needed),
raised exceptions as `Except`, and database tables as in-memory lists of
records.
-/

namespace NebulaKTV

/-! ### Range header parsing (`src/backend/app/api/stream.py`) -/

/-- The three `ValueError` raise sites of `parse_range_header`, by site:
`invalidFormat` when the regex does not match, `bothEmpty` when both captured
groups are empty, `startGreaterEnd` when the clamped interval is inverted.
The first two are malformed-range errors, the last is the unsatisfiable-range
error. -/
inductive RangeError where
  | invalidFormat
  | bothEmpty
  | startGreaterEnd
  deriving DecidableEq, Repr

/-- Embedding of `re.match(r"bytes=(\d*)-(\d*)", range_header)`.

`re.match` anchors at the left end only, so the pattern matches exactly when
the string starts with `bytes=`, then a maximal run of ASCII digits, then a
literal `-`, then a second run of digits; any characters after the second run
are ignored.  Regex backtracking cannot yield any other match: shortening the
greedy first group leaves a digit (not `-`) as the next required character. -/
def rangeRegexGroups (s : List Char) : Option (List Char × List Char) :=
  match s with
  | 'b' :: 'y' :: 't' :: 'e' :: 's' :: '=' :: rest =>
    match rest.dropWhile Char.isDigit with
    | '-' :: rest2 => some (rest.takeWhile Char.isDigit, rest2.takeWhile Char.isDigit)
    | _ => none
  | _ => none

/-- Embedding of Python `int` applied to a string of ASCII digits. -/
def digitsToNat (ds : List Char) : Nat :=
  ds.foldl (fun acc c => acc * 10 + (c.toNat - 48)) 0

/-- Embedding of `parse_range_header(range_header, file_size)` from
`src/backend/app/api/stream.py` (lines 47-93): regex match, empty-group
check, the three interpretation branches, the clamps, and the final
`start > end` validation, in source order. -/
def parse_range_header (range_header : String) (file_size : Int) :
    Except RangeError (Int × Int) :=
  match rangeRegexGroups range_header.toList with
  | none => .error .invalidFormat
  | some (start_str, end_str) =>
    if start_str = [] ∧ end_str = [] then .error .bothEmpty
    else
      let se : Int × Int :=
        if start_str = [] then
          -- format: bytes=-500 (the final 500 bytes)
          let suffix_length : Int := (digitsToNat end_str : Nat)
          (max 0 (file_size - suffix_length), file_size - 1)
        else if end_str = [] then
          -- format: bytes=500- (from 500 to the end of the file)
          ((digitsToNat start_str : Nat), file_size - 1)
        else
          -- format: bytes=0-1023
          ((digitsToNat start_str : Nat), (digitsToNat end_str : Nat))
      let start := if se.1 < 0 then 0 else se.1
      let stop := if se.2 ≥ file_size then file_size - 1 else se.2
      if start > stop then .error .startGreaterEnd
      else .ok (start, stop)

/-- Decimal digit character, as produced by Python `str` on an integer. -/
def digitChar (d : Nat) : Char := Char.ofNat (48 + d)

/-- Decimal digits of `n`, most significant first, with explicit fuel so that
the definition is structural and evaluates by `rfl`/`decide`. -/
def natDigitsAux : Nat → Nat → List Char
  | 0, _ => []
  | fuel + 1, n =>
    if n < 10 then [digitChar n]
    else natDigitsAux fuel (n / 10) ++ [digitChar (n % 10)]

/-- The decimal rendering of `n`, i.e. the character list of Python `str(n)`. -/
def natDigits (n : Nat) : List Char := natDigitsAux (n + 1) n

/-- The decimal rendering of `n` as a string (Python `str(n)`,
`f"{n}"`). -/
def natRepr (n : Nat) : String := ⟨natDigits n⟩

theorem digitChar_isDigit {d : Nat} (h : d < 10) : (digitChar d).isDigit = true := by
  interval_cases d <;> decide

theorem digitChar_toNat {d : Nat} (h : d < 10) : (digitChar d).toNat = 48 + d := by
  interval_cases d <;> decide

theorem natDigitsAux_ne_nil {fuel n : Nat} (h : n < fuel) :
    natDigitsAux fuel n ≠ [] := by
  cases fuel with
  | zero => omega
  | succ f =>
    simp only [natDigitsAux]
    split
    · simp
    · simp

theorem natDigitsAux_all_digits {fuel n : Nat} (h : n < fuel) :
    ∀ c ∈ natDigitsAux fuel n, c.isDigit = true := by
  induction fuel generalizing n with
  | zero => omega
  | succ f ih =>
    intro c hc
    simp only [natDigitsAux] at hc
    split at hc
    · rcases List.mem_singleton.mp hc with rfl
      exact digitChar_isDigit (by omega)
    · rcases List.mem_append.mp hc with h1 | h1
      · have hn : n / 10 < n := Nat.div_lt_self (by omega) (by omega)
        exact ih (by omega) c h1
      · rcases List.mem_singleton.mp h1 with rfl
        exact digitChar_isDigit (Nat.mod_lt _ (by omega))

theorem digitsToNat_natDigitsAux {fuel n : Nat} (h : n < fuel) :
    digitsToNat (natDigitsAux fuel n) = n := by
  induction fuel generalizing n with
  | zero => omega
  | succ f ih =>
    simp only [natDigitsAux]
    split
    · next hlt =>
      simp [digitsToNat, digitChar_toNat hlt]
    · next hge =>
      have hn : n / 10 < n := Nat.div_lt_self (by omega) (by omega)
      have hmod : n % 10 < 10 := Nat.mod_lt _ (by omega)
      simp only [digitsToNat, List.foldl_append, List.foldl_cons, List.foldl_nil]
      have := @ih (n / 10) (by omega)
      simp only [digitsToNat] at this
      rw [this, digitChar_toNat hmod]
      omega

theorem natDigits_ne_nil (n : Nat) : natDigits n ≠ [] :=
  natDigitsAux_ne_nil (Nat.lt_succ_self n)

theorem natDigits_all_digits (n : Nat) : ∀ c ∈ natDigits n, c.isDigit = true :=
  natDigitsAux_all_digits (Nat.lt_succ_self n)

theorem digitsToNat_natDigits (n : Nat) : digitsToNat (natDigits n) = n :=
  digitsToNat_natDigitsAux (Nat.lt_succ_self n)

theorem takeWhile_append_all {p : Char → Bool} {l : List Char} {x : Char}
    {r : List Char} (hl : ∀ c ∈ l, p c = true) (hx : p x = false) :
    ((l ++ x :: r).takeWhile p = l) ∧ ((l ++ x :: r).dropWhile p = x :: r) := by
  induction l with
  | nil => simp [List.takeWhile_cons, List.dropWhile_cons, hx]
  | cons a l ih =>
    have ha : p a = true := hl a (List.mem_cons_self a l)
    have := ih (fun c hc => hl c (List.mem_cons_of_mem a hc))
    simp [List.takeWhile_cons, List.dropWhile_cons, ha, this.1, this.2]

theorem takeWhile_eq_self_of_all {p : Char → Bool} {l : List Char}
    (hl : ∀ c ∈ l, p c = true) : l.takeWhile p = l := by
  induction l with
  | nil => rfl
  | cons a l ih =>
    have ha : p a = true := hl a (List.mem_cons_self a l)
    simp [List.takeWhile_cons, ha, ih (fun c hc => hl c (List.mem_cons_of_mem a hc))]

theorem toList_append (a b : String) : (a ++ b).toList = a.toList ++ b.toList := rfl

theorem rangeRegexGroups_render (d1 d2 : List Char)
    (h1 : ∀ c ∈ d1, c.isDigit = true) (h2 : ∀ c ∈ d2, c.isDigit = true) :
    rangeRegexGroups (['b', 'y', 't', 'e', 's', '='] ++ (d1 ++ '-' :: d2))
      = some (d1, d2) := by
  have hdash : Char.isDigit '-' = false := by decide
  have h := @takeWhile_append_all _ _ '-' d2 h1 hdash
  simp only [rangeRegexGroups, List.cons_append, List.nil_append]
  rw [h.2, h.1]
  simp [takeWhile_eq_self_of_all h2]

theorem render_toList (s e : Nat) :
    ("bytes=" ++ natRepr s ++ "-" ++ natRepr e).toList
      = ['b', 'y', 't', 'e', 's', '='] ++ (natDigits s ++ '-' :: natDigits e) := by
  simp [toList_append, natRepr, natDigits]

/-- C5: for every `file_size ≥ 1` and all `start`, `end` with
`0 ≤ start ≤ end` and `start < file_size`, parsing the Range string
`bytes={start}-{end}` against `file_size` returns the inclusive pair
`(start, min(end, file_size - 1))`. -/
theorem parse_range_full_form_ok (s e fs : Nat)
    (h1 : s ≤ e) (h2 : s < fs) (_h3 : 1 ≤ fs) :
    parse_range_header ("bytes=" ++ natRepr s ++ "-" ++ natRepr e) (fs : Int)
      = .ok ((s : Int), min (e : Int) ((fs : Int) - 1)) := by
  have hg := rangeRegexGroups_render (natDigits s) (natDigits e)
    (natDigits_all_digits s) (natDigits_all_digits e)
  simp only [parse_range_header, render_toList, hg]
  have hs := natDigits_ne_nil s
  have he := natDigits_ne_nil e
  simp only [if_neg (by tauto : ¬ (natDigits s = [] ∧ natDigits e = []))]
  simp only [if_neg hs, if_neg he, digitsToNat_natDigits]
  have hc1 : ¬ ((s : Int) < 0) := by omega
  have hc2 : (if (e : Int) ≥ (fs : Int) then (fs : Int) - 1 else (e : Int))
      = min (e : Int) ((fs : Int) - 1) := by
    rw [Int.min_def]; split_ifs <;> omega
  simp only [if_neg hc1]
  rw [hc2]
  have hc3 : ¬ ((s : Int) > min (e : Int) ((fs : Int) - 1)) := by
    rw [Int.min_def]; split_ifs <;> omega
  simp only [if_neg hc3]

/-- Witness for C5 at the spec's concrete scenario `bytes=0-1023`, size 10000. -/
theorem parse_range_full_form_ok_witness :
    parse_range_header ("bytes=" ++ natRepr 0 ++ "-" ++ natRepr 1023) ((10000 : Nat) : Int)
      = .ok (((0 : Nat) : Int), min ((1023 : Nat) : Int) (((10000 : Nat) : Int) - 1)) :=
  parse_range_full_form_ok 0 1023 10000 (by decide) (by decide) (by decide)

/-- C6: for every `file_size ≥ 1` and every `suffix ≥ 1`, parsing the Range
string `bytes=-{suffix}` against `file_size` returns the inclusive pair
`(max(0, file_size - suffix), file_size - 1)`. -/
theorem parse_range_suffix_form_ok (suffix fs : Nat) (h1 : 1 ≤ suffix) (h2 : 1 ≤ fs) :
    parse_range_header ("bytes=-" ++ natRepr suffix) (fs : Int)
      = .ok (max 0 ((fs : Int) - (suffix : Int)), (fs : Int) - 1) := by
  have hg := rangeRegexGroups_render [] (natDigits suffix)
    (by intro c hc; cases hc) (natDigits_all_digits suffix)
  have hlist : ("bytes=-" ++ natRepr suffix).toList
      = ['b', 'y', 't', 'e', 's', '='] ++ ([] ++ '-' :: natDigits suffix) := by
    simp [toList_append, natRepr, natDigits]
  have hne := natDigits_ne_nil suffix
  simp only [parse_range_header, hlist, hg]
  simp only [true_and, if_neg hne, if_true, digitsToNat_natDigits]
  have hc1 : ¬ (max 0 ((fs : Int) - (suffix : Nat)) < 0) := by omega
  have hc2 : ¬ ((fs : Int) - 1 ≥ (fs : Int)) := by omega
  have hc3 : ¬ (max 0 ((fs : Int) - (suffix : Nat)) > (fs : Int) - 1) := by omega
  simp only [if_neg hc1, if_neg hc2, if_neg hc3]

/-- Witness for C6 at the spec's concrete scenario `bytes=-500`, size 10000. -/
theorem parse_range_suffix_form_ok_witness :
    parse_range_header ("bytes=-" ++ natRepr 500) ((10000 : Nat) : Int)
      = .ok (max 0 (((10000 : Nat) : Int) - ((500 : Nat) : Int)), ((10000 : Nat) : Int) - 1) :=
  parse_range_suffix_form_ok 500 10000 (by decide) (by decide)

/-- C9: whenever range parsing succeeds and returns `(start, end)` for content
of length `file_size`, the pair satisfies `0 ≤ start ≤ end < file_size`. -/
theorem parse_range_ok_bounds (s : String) (fs a b : Int)
    (h : parse_range_header s fs = .ok (a, b)) :
    0 ≤ a ∧ a ≤ b ∧ b < fs := by
  unfold parse_range_header at h
  split at h
  · exact absurd h (by simp)
  · split at h
    · exact absurd h (by simp)
    · dsimp only at h
      repeat' split at h
      all_goals try dsimp only at *
      all_goals
        first
          | (rw [Except.ok.injEq, Prod.mk.injEq] at h
             obtain ⟨rfl, rfl⟩ := h
             refine ⟨?_, ?_, ?_⟩ <;> omega)
          | simp at h

/-- Witness for C9 at the concrete parse of `bytes=0-1023` against size 10000. -/
theorem parse_range_ok_bounds_witness :
    (0 : Int) ≤ 0 ∧ (0 : Int) ≤ 1023 ∧ (1023 : Int) < 10000 :=
  parse_range_ok_bounds "bytes=0-1023" 10000 0 1023 rfl

/-- Checker written from the specification words for C4: does the WHOLE string
match one of the three documented textual forms `bytes=<start>-<end>`,
`bytes=<start>-`, `bytes=-<suffix>` (decimal digit groups, not both empty,
and nothing else in the string)? -/
def matchesDocumentedForm (s : String) : Bool :=
  match s.toList with
  | 'b' :: 'y' :: 't' :: 'e' :: 's' :: '=' :: rest =>
    match rest.dropWhile Char.isDigit with
    | '-' :: rest2 =>
      rest2.all Char.isDigit && !((rest.takeWhile Char.isDigit).isEmpty && rest2.isEmpty)
    | _ => false
  | _ => false

/-- Counterexample to C4: `bytes=0-5x` matches none of the three documented
textual forms, yet `parse_range_header` accepts it and returns `(0, 5)` for a
10-byte file instead of failing with a malformed-range error.  The source
regex `re.match(r"bytes=(\d*)-(\d*)", ...)` is not anchored on the right, so
trailing characters are silently ignored. -/
theorem parse_range_trailing_junk_accepted :
    matchesDocumentedForm "bytes=0-5x" = false ∧
    parse_range_header "bytes=0-5x" 10 = .ok (0, 5) := ⟨rfl, rfl⟩

/-- Amended contract for C4, following the amended wording: a header is
rejected as malformed exactly when it does not START with a prefix of the
form `bytes=<d1>-<d2>` with at least one digit group non-empty (characters
after the prefix are ignored); a prefix-matching header whose clamped
interval is inverted fails as unsatisfiable; every other prefix-matching
header yields the clamped interval, floored at 0 and capped at
`file_size - 1`. -/
def rangeSpecAmended (s : String) (file_size : Int) : Except RangeError (Int × Int) :=
  match rangeRegexGroups s.toList with
  | none => .error .invalidFormat
  | some (d1, d2) =>
    if d1.isEmpty && d2.isEmpty then .error .bothEmpty
    else
      let lo : Int :=
        if d1.isEmpty then max 0 (file_size - (digitsToNat d2 : Nat))
        else (digitsToNat d1 : Nat)
      let hi : Int :=
        if d1.isEmpty || d2.isEmpty then file_size - 1
        else min ((digitsToNat d2 : Nat) : Int) (file_size - 1)
      if hi < lo then .error .startGreaterEnd else .ok (lo, hi)

/-- C4 (amended): `parse_range_header` realises exactly the amended contract
`rangeSpecAmended` — malformed-range failure for precisely the strings with
no `bytes=<d1>-<d2>` prefix or with both digit groups empty, an
unsatisfiable-range failure exactly when the clamped interval is inverted,
and the clamped interval otherwise. -/
theorem parse_range_header_amended (s : String) (fs : Int) :
    parse_range_header s fs = rangeSpecAmended s fs := by
  unfold parse_range_header rangeSpecAmended
  cases hm : rangeRegexGroups s.toList with
  | none => rfl
  | some g =>
    obtain ⟨d1, d2⟩ := g
    have hmin : (if ((digitsToNat d2 : Nat) : Int) ≥ fs then fs - 1
        else ((digitsToNat d2 : Nat) : Int)) = min ((digitsToNat d2 : Nat) : Int) (fs - 1) := by
      rw [Int.min_def]; split_ifs <;> omega
    have hmax : ¬ (max 0 (fs - ((digitsToNat d2 : Nat) : Int)) < 0) := by omega
    have hnn : ¬ (((digitsToNat d1 : Nat) : Int) < 0) := by omega
    by_cases h1 : d1 = [] <;> by_cases h2 : d2 = []
    · simp [h1, h2]
    · simp only [h1, h2, List.isEmpty_nil, Bool.true_and, List.isEmpty_eq_true,
        true_and, if_neg h2, if_true, Bool.true_or, if_pos trivial, ite_self,
        if_neg hmax]
    · simp only [h1, h2, List.isEmpty_eq_true, if_neg h1, and_true, true_and,
        Bool.and_eq_true, Bool.or_eq_true, ite_self, if_neg hnn]
      simp [h1, h2]
      rw [if_neg hnn]
    · simp only [h1, h2, List.isEmpty_eq_true, Bool.and_eq_true, Bool.or_eq_true,
        ite_self, if_neg hnn]
      simp [h1, h2]
      rw [if_neg hnn, hmin]
      split_ifs <;> first | rfl | omega

end NebulaKTV

namespace NebulaKTV

/-- The `AssetType` enum from `src/backend/app/models/media_asset.py`. -/
inductive AssetType where
  | video_master
  | audio_original
  | audio_inst
  | audio_vocal
  | lyrics_vtt
  | lyrics_word_level
  | waveform_json
  deriving DecidableEq, Repr

/-- The `.value` string of each enum member, as stored in the `type` column. -/
def AssetType.value : AssetType → String
  | .video_master => "video_master"
  | .audio_original => "audio_original"
  | .audio_inst => "audio_inst"
  | .audio_vocal => "audio_vocal"
  | .lyrics_vtt => "lyrics_vtt"
  | .lyrics_word_level => "lyrics_word_level"
  | .waveform_json => "waveform_json"

/-- A row of the `media_assets` table (`MediaAsset` model); identifiers are
modelled as their UUID strings, `duration` (a SQL `Numeric(10,2)`) as a
rational. -/
structure MediaAssetRec where
  song_id : String
  type : String
  path : String
  file_size : Option Int := none
  duration : Option Rat := none
  codec : Option String := none
  bitrate : Option Int := none
  resolution : Option String := none
  deriving DecidableEq, Repr

/-- Embedding of `SyncMediaAssetService.has_required_assets`
(`src/backend/worker/services/media_asset_service.py`, lines 151-176):
query the `type` of the records for `song_id` whose type is among the
required ones, then check that each required type occurs. -/
def SyncMediaAssetService.has_required_assets (db : List MediaAssetRec)
    (song_id : String) : Bool :=
  let required_types := [AssetType.video_master.value, AssetType.audio_original.value,
    AssetType.audio_inst.value]
  let existing_types := (db.filter
    (fun a => a.song_id == song_id && required_types.contains a.type)).map
    (fun a => a.type)
  required_types.all (fun rt => existing_types.contains rt)

theorem has_required_assets_iff (db : List MediaAssetRec) (sid : String) :
    SyncMediaAssetService.has_required_assets db sid = true ↔
      ((∃ a ∈ db, a.song_id = sid ∧ a.type = "video_master") ∧
       (∃ a ∈ db, a.song_id = sid ∧ a.type = "audio_original") ∧
       (∃ a ∈ db, a.song_id = sid ∧ a.type = "audio_inst")) := by
  simp [SyncMediaAssetService.has_required_assets, AssetType.value,
    List.elem_iff, List.all_eq_true, List.mem_filter]
  constructor
  · rintro ⟨⟨a, ⟨ha, h1, h2⟩, hty⟩, ⟨b, ⟨hb, h3, h4⟩, hty2⟩, ⟨c, ⟨hc, h5, h6⟩, hty3⟩⟩
    exact ⟨⟨a, ha, h1, hty⟩, ⟨b, hb, h3, hty2⟩, ⟨c, hc, h5, hty3⟩⟩
  · rintro ⟨⟨a, ha, h1, h2⟩, ⟨b, hb, h3, h4⟩, ⟨c, hc, h5, h6⟩⟩
    exact ⟨⟨a, ⟨ha, h1, by simp [h2]⟩, h2⟩, ⟨b, ⟨hb, h3, by simp [h4]⟩, h4⟩,
      ⟨c, ⟨hc, h5, by simp [h6]⟩, h6⟩⟩

end NebulaKTV

namespace NebulaKTV

/-- C7: `has_required_assets` (the completeness predicate `isComplete`)
returns true iff the kinds recorded for the song include all of
video_master, audio_original and audio_inst; in particular false with no
records or a missing mandatory kind, true regardless of optional kinds,
and duplicates still count as presence. -/
theorem has_required_assets_complete_iff (db : List MediaAssetRec) (sid : String) :
    SyncMediaAssetService.has_required_assets db sid = true ↔
      ((∃ a ∈ db, a.song_id = sid ∧ a.type = "video_master") ∧
       (∃ a ∈ db, a.song_id = sid ∧ a.type = "audio_original") ∧
       (∃ a ∈ db, a.song_id = sid ∧ a.type = "audio_inst")) :=
  has_required_assets_iff db sid

/-- Embedding of `SyncMediaAssetService.get_asset_by_song_and_type`
(`src/backend/worker/services/media_asset_service.py`, lines 27-37):
`query(...).filter(...).first()` returns the first matching row or `None`. -/
def SyncMediaAssetService.get_asset_by_song_and_type (db : List MediaAssetRec)
    (song_id : String) (asset_type : AssetType) : Option MediaAssetRec :=
  (db.filter (fun a => a.song_id == song_id && a.type == asset_type.value)).head?

/-- The SQLAlchemy exception raised by `Result.scalar_one_or_none` when more
than one row matches. -/
inductive QueryError where
  | multipleResultsFound
  deriving DecidableEq, Repr

/-- Embedding of the async `MediaAssetService.get_asset_by_song_and_type`
(`src/backend/app/services/media_asset_service.py`, lines 31-44):
`scalar_one_or_none()` returns the unique matching row, `None` when there is
none, and raises `MultipleResultsFound` when several rows match. -/
def MediaAssetService.get_asset_by_song_and_type (db : List MediaAssetRec)
    (song_id : String) (asset_type : AssetType) :
    Except QueryError (Option MediaAssetRec) :=
  match db.filter (fun a => a.song_id == song_id && a.type == asset_type.value) with
  | [] => .ok none
  | [a] => .ok (some a)
  | _ :: _ :: _ => .error .multipleResultsFound

def dupVideoA : MediaAssetRec :=
  { song_id := "song-1", type := "video_master", path := "/media/a.mp4" }

def dupVideoB : MediaAssetRec :=
  { song_id := "song-1", type := "video_master", path := "/media/b.mp4" }

/-- Counterexample to C8: with two `video_master` records for the same song,
the app-layer (async) service raises `MultipleResultsFound` instead of
returning the first record; only the worker-layer (sync) service returns the
first record. -/
theorem get_asset_duplicates_raises :
    MediaAssetService.get_asset_by_song_and_type [dupVideoA, dupVideoB] "song-1"
        AssetType.video_master = .error .multipleResultsFound ∧
    SyncMediaAssetService.get_asset_by_song_and_type [dupVideoA, dupVideoB] "song-1"
        AssetType.video_master = some dupVideoA := ⟨rfl, rfl⟩

theorem head?_filter_eq_find? {α : Type} (p : α → Bool) (l : List α) :
    (l.filter p).head? = l.find? p := by
  induction l with
  | nil => rfl
  | cons a l ih => by_cases h : p a <;> simp [List.filter_cons, List.find?_cons, h, ih]

/-- C8 (amended): the worker's sync `get_asset_by_song_and_type` returns the
first record matching the song id and kind (`List.find?` semantics) and never
raises; the app's async variant returns the unique match or none, and raises
`MultipleResultsFound` exactly when at least two records match. -/
theorem get_asset_by_song_and_type_amended (db : List MediaAssetRec)
    (sid : String) (ty : AssetType) :
    SyncMediaAssetService.get_asset_by_song_and_type db sid ty
        = db.find? (fun a => a.song_id == sid && a.type == ty.value)
      ∧ MediaAssetService.get_asset_by_song_and_type db sid ty
        = (if 2 ≤ db.countP (fun a => a.song_id == sid && a.type == ty.value)
           then .error .multipleResultsFound
           else .ok (db.find? (fun a => a.song_id == sid && a.type == ty.value))) := by
  have hcount : db.countP (fun a => a.song_id == sid && a.type == ty.value)
      = (db.filter (fun a => a.song_id == sid && a.type == ty.value)).length :=
    List.countP_eq_length_filter _ _
  refine ⟨head?_filter_eq_find? _ db, ?_⟩
  rw [← head?_filter_eq_find? _ db]
  unfold MediaAssetService.get_asset_by_song_and_type
  rw [hcount]
  cases hf : db.filter (fun a => a.song_id == sid && a.type == ty.value) with
  | nil => simp [hf]
  | cons a t =>
    cases t with
    | nil => simp [hf]
    | cons b t2 => simp [hf]

end NebulaKTV

namespace NebulaKTV

/-! ### Song lifecycle (`src/backend/worker/tasks/process_song.py`) -/

/-- The `SongStatus` enum from `src/backend/app/models/song.py`. -/
inductive SongStatus where
  | pending
  | processing
  | ready
  | partialDone
  | failed
  deriving DecidableEq, Repr

/-- The `.value` string of each member, as stored in the `status` column. -/
def SongStatus.value : SongStatus → String
  | .pending => "PENDING"
  | .processing => "PROCESSING"
  | .ready => "READY"
  | .partialDone => "PARTIAL"
  | .failed => "FAILED"

/-- A JSON-like value stored under a key of `meta_json`. -/
inductive MetaVal where
  | str (s : String)
  | num (n : Int)
  | boolean (b : Bool)
  | null
  deriving DecidableEq, Repr

/-- A Python dict with string keys (the `meta_json` JSONB object), as an
insertion-ordered association list. -/
abbrev MetaDict := List (String × MetaVal)

/-- Python `d[k] = v`: overwrite in place when the key exists, else append. -/
def metaSet (m : MetaDict) (k : String) (v : MetaVal) : MetaDict :=
  if m.any (fun kv => kv.1 == k) then
    m.map (fun kv => if kv.1 == k then (k, v) else kv)
  else m ++ [(k, v)]

/-- Python `d.get(k)`: the value at the first occurrence of `k`. -/
def metaGet (m : MetaDict) (k : String) : Option MetaVal :=
  (m.find? (fun kv => kv.1 == k)).map (fun kv => kv.2)

/-- A row of the `songs` table, restricted to the columns the lifecycle
touches: the primary key (UUID string), `status` (stored as a string) and the
nullable `meta_json` object. -/
structure SongRec where
  id : String
  status : String
  meta_json : Option MetaDict
  deriving DecidableEq, Repr

/-- The persistent store shared by worker and app: the `songs` and
`media_assets` tables. -/
structure DBState where
  songs : List SongRec
  assets : List MediaAssetRec
  deriving DecidableEq, Repr

/-- `db.query(Song).filter(Song.id == UUID(song_id)).first()`. -/
def findSong (st : DBState) (song_id : String) : Option SongRec :=
  st.songs.find? (fun s => s.id == song_id)

/-- Mutating the single row returned by `.first()` and committing: the first
row with the given id is replaced by its update, all other rows are kept. -/
def updateFirstSong : List SongRec → String → (SongRec → SongRec) → List SongRec
  | [], _, _ => []
  | s :: rest, sid, f =>
    if s.id == sid then f s :: rest else s :: updateFirstSong rest sid f

/-- The observable status of a song (what a client polling the song sees). -/
def songStatus (st : DBState) (song_id : String) : Option String :=
  (findSong st song_id).map (fun s => s.status)

/-- The value stored under key `k` of a song's `meta_json` (a missing
`meta_json` reads as the empty dict). -/
def songMetaGet (st : DBState) (song_id k : String) : Option MetaVal :=
  match findSong st song_id with
  | some s => metaGet (s.meta_json.getD []) k
  | none => none

/-! `os.path` helpers (POSIX variants), used by `_generate_output_paths`. -/

/-- `(p[:i], p[i:])` where `i = p.rfind('/') + 1`. -/
def splitLastSlash (l : List Char) : List Char × List Char :=
  let r := l.reverse
  ((r.dropWhile (fun c => c ≠ '/')).reverse, (r.takeWhile (fun c => c ≠ '/')).reverse)

/-- `os.path.basename`. -/
def os_path_basename (p : String) : String := ⟨(splitLastSlash p.toList).2⟩

/-- `os.path.dirname`: the part before the final component, with trailing
slashes stripped unless the result consists only of slashes. -/
def os_path_dirname (p : String) : String :=
  let head := (splitLastSlash p.toList).1
  if head ≠ [] ∧ head.any (fun c => c ≠ '/') then
    ⟨(head.reverse.dropWhile (fun c => c = '/')).reverse⟩
  else ⟨head⟩

/-- Index of the last occurrence of `c` in `l`, or `-1` (`str.rfind`). -/
def rfindIdx (l : List Char) (c : Char) : Int :=
  match l.reverse.findIdx? (fun x => x == c) with
  | some j => (l.length : Int) - 1 - (j : Int)
  | none => -1

/-- `os.path.splitext`: split at the last dot of the final path component,
unless every character between the component start and that dot is itself a
dot (leading-dot filenames are not split). -/
def os_path_splitext (p : String) : String × String :=
  let l := p.toList
  let si := rfindIdx l '/'
  let di := rfindIdx l '.'
  if di > si then
    let between := (l.drop (si + 1).toNat).take (di - si - 1).toNat
    if between.any (fun c => c ≠ '.') then
      (⟨l.take di.toNat⟩, ⟨l.drop di.toNat⟩)
    else (p, "")
  else (p, "")

/-- `os.path.join` on two components. -/
def os_path_join (a b : String) : String :=
  if b.startsWith "/" then b
  else if a = "" ∨ a.endsWith "/" then a ++ b
  else a ++ "/" ++ b

/-- The dictionary returned by `_generate_output_paths`. -/
structure OutputPaths where
  video_master : String
  audio_original : String
  audio_inst : String
  audio_vocal : String
  lyrics_vtt : String
  deriving DecidableEq, Repr

/-- Embedding of `_generate_output_paths(song_id, file_path)`
(`src/backend/worker/tasks/process_song.py`, lines 19-43). -/
def generate_output_paths (song_id file_path : String) : OutputPaths :=
  let base_dir := os_path_dirname file_path
  let base_name := (os_path_splitext (os_path_basename file_path)).1
  let output_dir := os_path_join (os_path_join base_dir "processed") song_id
  { video_master := file_path
    audio_original := os_path_join output_dir (base_name ++ "_original.mp3")
    audio_inst := os_path_join output_dir (base_name ++ "_inst.mp3")
    audio_vocal := os_path_join output_dir (base_name ++ "_vocal.mp3")
    lyrics_vtt := os_path_join output_dir (base_name ++ ".vtt") }

/-- The optional technical-metadata dictionary read by `create_asset` through
`.get(...)` (only these five keys are ever read). -/
structure AssetMetaInput where
  file_size : Option Int
  duration : Option Rat
  codec : Option String
  bitrate : Option Int
  resolution : Option String
  deriving DecidableEq, Repr

/-- The empty metadata dict (`metadata or {}`). -/
def AssetMetaInput.empty : AssetMetaInput :=
  { file_size := none, duration := none, codec := none, bitrate := none,
    resolution := none }

/-- Embedding of `SyncMediaAssetService.create_asset`: the row inserted by
`db.add`. -/
def SyncMediaAssetService.create_asset (song_id : String) (asset_type : AssetType)
    (path : String) (file_size : Option Int) (duration : Option Rat)
    (codec : Option String) (bitrate : Option Int) (resolution : Option String) :
    MediaAssetRec :=
  { song_id := song_id, type := asset_type.value, path := path,
    file_size := file_size, duration := duration, codec := codec,
    bitrate := bitrate, resolution := resolution }

/-- Embedding of `SyncMediaAssetService.create_media_assets_for_song`
(`src/backend/worker/services/media_asset_service.py`, lines 68-142): creates
the video, original-audio and instrumental-audio rows in order (the audio
rows are created without a `resolution`) and returns the created rows
together with the table extended by them. -/
def SyncMediaAssetService.create_media_assets_for_song (db : List MediaAssetRec)
    (song_id video_path audio_original_path audio_inst_path : String)
    (video_metadata audio_original_metadata audio_inst_metadata : AssetMetaInput) :
    List MediaAssetRec × List MediaAssetRec :=
  let video_asset := SyncMediaAssetService.create_asset song_id
    AssetType.video_master video_path video_metadata.file_size
    video_metadata.duration video_metadata.codec video_metadata.bitrate
    video_metadata.resolution
  let audio_original_asset := SyncMediaAssetService.create_asset song_id
    AssetType.audio_original audio_original_path audio_original_metadata.file_size
    audio_original_metadata.duration audio_original_metadata.codec
    audio_original_metadata.bitrate none
  let audio_inst_asset := SyncMediaAssetService.create_asset song_id
    AssetType.audio_inst audio_inst_path audio_inst_metadata.file_size
    audio_inst_metadata.duration audio_inst_metadata.codec
    audio_inst_metadata.bitrate none
  let assets := [video_asset, audio_original_asset, audio_inst_asset]
  (assets, db ++ assets)

/-- The `meta_json` value that `_mark_song_failed`'s `db.commit()` actually
persists.  `meta_json` is a plain `Column(JSONB)` — no `MutableDict` wrapper
and no `flag_modified` call anywhere in the repository — so SQLAlchemy does
not change-track the in-place mutation `song.meta_json["error"] =
error_message`: when the column was already non-NULL, the flush carries only
the tracked `status` assignment and the stored `meta_json` stays unchanged.
Only when it was NULL does the preceding attribute assignment
`song.meta_json = {}` mark the attribute dirty, so the dict that then
receives the `error` key is flushed. -/
def persistedFailMeta (old : Option MetaDict) (error_message : String) :
    Option MetaDict :=
  match old with
  | none => some (metaSet [] "error" (MetaVal.str error_message))
  | some m => some m

/-- Embedding of `_mark_song_failed(song_id, error_message)`
(`src/backend/worker/tasks/process_song.py`, lines 208-231), at the level of
the persisted store: when the song exists, the commit flushes the tracked
`status := FAILED` assignment, and the `meta_json` column changes only as
`persistedFailMeta` describes (the in-place `error`-key write is untracked);
when the song is missing, nothing happens. -/
def mark_song_failed (st : DBState) (song_id error_message : String) : DBState :=
  match findSong st song_id with
  | none => st
  | some _ =>
    { st with songs := updateFirstSong st.songs song_id (fun s =>
        { s with status := SongStatus.failed.value,
                 meta_json := persistedFailMeta s.meta_json error_message }) }

end NebulaKTV

namespace NebulaKTV

/-- Outcome of the externally-performed processing section of one task
attempt (the region of the `try` block between the `PROCESSING` write and
the asset-registration step — the TODO pipeline steps and the surrounding
database work): either every step succeeds, or some step raises an
`Exception` whose `str` is `msg`, or the Celery soft time limit fires
(`SoftTimeLimitExceeded`). -/
inductive TaskEvent where
  | ok
  | raiseExc (msg : String)
  | softTimeout
  deriving DecidableEq, Repr

/-- The result dictionary returned by `process_song_task`; absent keys are
`none`. -/
structure TaskResult where
  success : Bool
  song_id : String
  status : Option String
  assets_created : Option Bool
  output_paths : Option OutputPaths
  error : Option String
  message : Option String
  deriving DecidableEq, Repr

/-- Embedding of `_create_media_assets` + the surrounding task logic for
Step 5: when the database work succeeds (`assetsOk = true`) the three rows
are inserted (the session commits); when it raises internally the helper
catches the exception, the session rolls back leaving the table unchanged,
and `False` is returned. -/
def create_media_assets_step (st : DBState) (song_id : String)
    (paths : OutputPaths) (assetsOk : Bool) : Bool × DBState :=
  if assetsOk then
    let r := SyncMediaAssetService.create_media_assets_for_song st.assets song_id
      paths.video_master paths.audio_original paths.audio_inst
      { AssetMetaInput.empty with codec := some "h264", resolution := some "1920x1080" }
      { AssetMetaInput.empty with codec := some "mp3", bitrate := some 320000 }
      { AssetMetaInput.empty with codec := some "mp3", bitrate := some 320000 }
    (true, { st with assets := r.2 })
  else (false, st)

/-- Embedding of `process_song_task(song_id, file_path)`
(`src/backend/worker/tasks/process_song.py`, lines 100-205).

Control flow, as in the source: look the song up and return a failure
dictionary (without raising) when it is missing; otherwise write
`PROCESSING` and commit; run the processing steps (`ev`); on success create
the media assets (Step 5, `assetsOk`), re-fetch the song, write `READY` and
return the success dictionary; on `SoftTimeLimitExceeded` mark the song
failed and return a failure dictionary; on any other exception mark the song
failed and re-raise (modelled as `Except.error`), which triggers the Celery
retry. -/
def process_song_task (st : DBState) (song_id file_path : String)
    (ev : TaskEvent) (assetsOk : Bool) : Except String TaskResult × DBState :=
  match findSong st song_id with
  | none =>
    (.ok { success := false, song_id := song_id, status := none,
           assets_created := none, output_paths := none,
           error := some "Song not found", message := none }, st)
  | some _ =>
    let st1 : DBState :=
      { st with songs := updateFirstSong st.songs song_id (fun s =>
          { s with status := SongStatus.processing.value }) }
    match ev with
    | .raiseExc msg => (.error msg, mark_song_failed st1 song_id msg)
    | .softTimeout =>
      (.ok { success := false, song_id := song_id, status := none,
             assets_created := none, output_paths := none,
             error := some "Processing timeout", message := none },
       mark_song_failed st1 song_id "Processing timeout")
    | .ok =>
      let output_paths := generate_output_paths song_id file_path
      let r := create_media_assets_step st1 song_id output_paths assetsOk
      let st2 := r.2
      let st3 : DBState :=
        match findSong st2 song_id with
        | some _ =>
          { st2 with songs := updateFirstSong st2.songs song_id (fun s =>
              { s with status := SongStatus.ready.value }) }
        | none => st2
      (.ok { success := true, song_id := song_id,
             status := some SongStatus.ready.value,
             assets_created := some r.1, output_paths := some output_paths,
             error := none, message := some "Song processed successfully" }, st3)

/-- The Celery driver for `process_song_task` (`autoretry_for=(Exception,)`,
`max_retries=3`): each attempt consumes one planned event; a returned
dictionary is terminal; a raised exception triggers a retry while retries
remain and is terminal otherwise.  The result is the list of database states
visible at the attempt boundaries, the last being the terminal state. -/
def celery_run (st : DBState) (song_id file_path : String) :
    List (TaskEvent × Bool) → Nat → List DBState
  | [], _ => []
  | (ev, assetsOk) :: plan, retriesLeft =>
    let r := process_song_task st song_id file_path ev assetsOk
    match r.1 with
    | .ok _ => [r.2]
    | .error _ =>
      match retriesLeft with
      | 0 => [r.2]
      | rl + 1 => r.2 :: celery_run r.2 song_id file_path plan rl

end NebulaKTV

namespace NebulaKTV

theorem find?_append {α : Type} (p : α → Bool) (l1 l2 : List α) :
    (l1 ++ l2).find? p
      = match l1.find? p with
        | some x => some x
        | none => l2.find? p := by
  induction l1 with
  | nil => rfl
  | cons a l ih => by_cases h : p a <;> simp [List.find?_cons, h, ih]

theorem find?_mapSet_self (m : MetaDict) (k : String) (v : MetaVal) :
    ((m.map (fun kv => if kv.1 == k then (k, v) else kv)).find?
        (fun kv => kv.1 == k))
      = if m.any (fun kv => kv.1 == k) then some (k, v) else none := by
  induction m with
  | nil => rfl
  | cons kv m ih =>
    by_cases h1 : kv.1 == k
    · simp only [List.map_cons, List.any_cons, h1, Bool.true_or, if_pos h1, if_true]
      rw [List.find?_cons_of_pos _ (by simp)]
    · simp only [List.map_cons, List.any_cons, h1, Bool.false_or, if_neg h1]
      rw [List.find?_cons_of_neg _ (by simpa using h1)]
      exact ih

theorem find?_mapSet_other (m : MetaDict) (k : String) (v : MetaVal) (k' : String)
    (hbk : (k == k') = false) :
    ((m.map (fun kv => if kv.1 == k then (k, v) else kv)).find?
        (fun kv => kv.1 == k'))
      = m.find? (fun kv => kv.1 == k') := by
  induction m with
  | nil => rfl
  | cons kv m ih =>
    by_cases h1 : kv.1 == k
    · have hk1 : kv.1 = k := eq_of_beq h1
      have h3 : (kv.1 == k') = false := by rw [hk1]; exact hbk
      simp only [List.map_cons, if_pos h1]
      rw [List.find?_cons_of_neg _ (by simpa using hbk),
        List.find?_cons_of_neg _ (by simpa using h3)]
      exact ih
    · simp only [List.map_cons, if_neg h1]
      by_cases h3 : kv.1 == k'
      · simp [List.find?_cons, h3]
      · rw [List.find?_cons_of_neg _ (by simpa using h3),
          List.find?_cons_of_neg _ (by simpa using h3)]
        exact ih

theorem metaGet_metaSet_self (m : MetaDict) (k : String) (v : MetaVal) :
    metaGet (metaSet m k v) k = some v := by
  unfold metaGet metaSet
  by_cases h2 : m.any (fun kv => kv.1 == k)
  · rw [if_pos h2, find?_mapSet_self, if_pos h2]
    rfl
  · rw [if_neg h2, find?_append]
    have : m.find? (fun kv => kv.1 == k) = none := by
      rw [List.find?_eq_none]
      intro x hx
      simp only [List.any_eq_true, not_exists, not_and] at h2
      exact fun hc => (h2 x hx) hc
    rw [this]
    simp [List.find?_cons]

theorem metaGet_metaSet_other (m : MetaDict) (k : String) (v : MetaVal)
    (k' : String) (h : ¬ (k' = k)) :
    metaGet (metaSet m k v) k' = metaGet m k' := by
  have hbk : (k == k') = false := by
    simp only [beq_eq_false_iff_ne, ne_eq]
    exact fun hh => h hh.symm
  unfold metaGet metaSet
  by_cases h2 : m.any (fun kv => kv.1 == k)
  · rw [if_pos h2, find?_mapSet_other m k v k' hbk]
  · rw [if_neg h2, find?_append]
    cases hf : m.find? (fun kv => kv.1 == k') with
    | some x => rfl
    | none => simp [List.find?_cons, hbk]

end NebulaKTV

namespace NebulaKTV

theorem find?_updateFirstSong (l : List SongRec) (sid : String)
    (f : SongRec → SongRec) (hf : ∀ s, (f s).id = s.id) :
    (updateFirstSong l sid f).find? (fun s => s.id == sid)
      = (l.find? (fun s => s.id == sid)).map f := by
  induction l with
  | nil => rfl
  | cons s rest ih =>
    by_cases h : s.id == sid
    · simp only [updateFirstSong, if_pos h]
      rw [@List.find?_cons_of_pos _ (fun t => t.id == sid) (f s) rest
          (by simpa [hf s] using h),
        @List.find?_cons_of_pos _ (fun t => t.id == sid) s rest h]
      rfl
    · simp only [updateFirstSong, if_neg h]
      rw [@List.find?_cons_of_neg _ (fun t => t.id == sid) s
          (updateFirstSong rest sid f) (by simpa using h),
        @List.find?_cons_of_neg _ (fun t => t.id == sid) s rest (by simpa using h)]
      exact ih

theorem findSong_update (st : DBState) (sid : String) (f : SongRec → SongRec)
    (hf : ∀ s, (f s).id = s.id) (a : List MediaAssetRec) :
    findSong { songs := updateFirstSong st.songs sid f, assets := a } sid
      = (findSong st sid).map f :=
  find?_updateFirstSong st.songs sid f hf

theorem mark_song_failed_found (st : DBState) (sid msg : String) (s : SongRec)
    (h : findSong st sid = some s) :
    findSong (mark_song_failed st sid msg) sid
      = some { s with status := SongStatus.failed.value,
                      meta_json := persistedFailMeta s.meta_json msg } := by
  unfold mark_song_failed
  rw [h]
  show (updateFirstSong st.songs sid (fun t =>
    { t with status := SongStatus.failed.value,
             meta_json := persistedFailMeta t.meta_json msg })).find?
    (fun t => t.id == sid) = _
  rw [find?_updateFirstSong st.songs sid (fun t =>
    { t with status := SongStatus.failed.value,
             meta_json := persistedFailMeta t.meta_json msg }) (fun t => rfl)]
  unfold findSong at h
  rw [h]
  rfl

end NebulaKTV

namespace NebulaKTV

theorem findSong_set_songs (st : DBState) (sid : String) (f : SongRec → SongRec)
    (hf : ∀ t, (f t).id = t.id) :
    findSong { st with songs := updateFirstSong st.songs sid f } sid
      = (findSong st sid).map f :=
  find?_updateFirstSong st.songs sid f hf

/-- The diagnostic message a failing event writes: the exception's `str`
for a re-raised exception, the fixed string for a soft time limit. -/
def failMsg : TaskEvent → Option String
  | .ok => none
  | .raiseExc m => some m
  | .softTimeout => some "Processing timeout"

theorem mark_failed_after_processing (st st1 : DBState) (sid m : String)
    (s : SongRec) (hs : findSong st sid = some s)
    (hst1 : st1 = { st with songs := updateFirstSong st.songs sid (fun t =>
      { t with status := SongStatus.processing.value }) }) :
    songStatus (mark_song_failed st1 sid m) sid = some SongStatus.failed.value := by
  subst hst1
  have h1 : findSong { st with songs := updateFirstSong st.songs sid (fun t =>
      { t with status := SongStatus.processing.value }) } sid
      = some { s with status := SongStatus.processing.value } := by
    rw [findSong_set_songs st sid (fun t =>
      { t with status := SongStatus.processing.value }) (fun t => rfl), hs]
    rfl
  have h2 := mark_song_failed_found _ sid m _ h1
  unfold songStatus
  rw [h2]
  rfl

theorem create_step_songs (st : DBState) (sid : String) (p : OutputPaths)
    (aok : Bool) :
    (create_media_assets_step st sid p aok).2.songs = st.songs := by
  cases aok <;> rfl

theorem findSong_create_step (st : DBState) (sid sid2 : String) (p : OutputPaths)
    (aok : Bool) :
    findSong (create_media_assets_step st sid p aok).2 sid2 = findSong st sid2 := by
  unfold findSong
  rw [create_step_songs]

end NebulaKTV

namespace NebulaKTV

theorem failed_attempt_facts (st : DBState) (sid fp m : String) (ev : TaskEvent)
    (aok : Bool) (s : SongRec) (hs : findSong st sid = some s)
    (hev : failMsg ev = some m) :
    songStatus (process_song_task st sid fp ev aok).2 sid
        = some SongStatus.failed.value := by
  cases ev with
  | ok => simp [failMsg] at hev
  | raiseExc m2 =>
    have hm : m2 = m := by simpa [failMsg] using hev
    subst hm
    unfold process_song_task
    rw [hs]
    exact mark_failed_after_processing st _ sid m2 s hs rfl
  | softTimeout =>
    unfold process_song_task
    rw [hs]
    exact mark_failed_after_processing st _ sid "Processing timeout" s hs rfl

theorem songStatus_isSome (st : DBState) (sid : String) (x : String)
    (h : songStatus st sid = some x) : (findSong st sid).isSome = true := by
  unfold songStatus at h
  cases hf : findSong st sid <;> rw [hf] at h <;> simp_all

end NebulaKTV

namespace NebulaKTV

/-- The video row inserted by `create_media_assets_for_song`. -/
def createdVideoRec (sid vp : String) (vm : AssetMetaInput) : MediaAssetRec :=
  { song_id := sid, type := "video_master", path := vp,
    file_size := vm.file_size, duration := vm.duration, codec := vm.codec,
    bitrate := vm.bitrate, resolution := vm.resolution }

/-- The original-audio row inserted by `create_media_assets_for_song`. -/
def createdAudioOriginalRec (sid op : String) (om : AssetMetaInput) : MediaAssetRec :=
  { song_id := sid, type := "audio_original", path := op,
    file_size := om.file_size, duration := om.duration, codec := om.codec,
    bitrate := om.bitrate, resolution := none }

/-- The instrumental-audio row inserted by `create_media_assets_for_song`. -/
def createdAudioInstRec (sid ip : String) (im : AssetMetaInput) : MediaAssetRec :=
  { song_id := sid, type := "audio_inst", path := ip,
    file_size := im.file_size, duration := im.duration, codec := im.codec,
    bitrate := im.bitrate, resolution := none }

theorem create_media_assets_for_song_mem (db : List MediaAssetRec)
    (sid vp op ip : String) (vm om im : AssetMetaInput) :
    (∃ a ∈ (SyncMediaAssetService.create_media_assets_for_song db sid vp op ip
        vm om im).2, a.song_id = sid ∧ a.type = "video_master") ∧
    (∃ a ∈ (SyncMediaAssetService.create_media_assets_for_song db sid vp op ip
        vm om im).2, a.song_id = sid ∧ a.type = "audio_original") ∧
    (∃ a ∈ (SyncMediaAssetService.create_media_assets_for_song db sid vp op ip
        vm om im).2, a.song_id = sid ∧ a.type = "audio_inst") := by
  refine ⟨⟨createdVideoRec sid vp vm, ?_, rfl, rfl⟩,
    ⟨createdAudioOriginalRec sid op om, ?_, rfl, rfl⟩,
    ⟨createdAudioInstRec sid ip im, ?_, rfl, rfl⟩⟩ <;>
    simp [SyncMediaAssetService.create_media_assets_for_song,
      SyncMediaAssetService.create_asset, AssetType.value, createdVideoRec,
      createdAudioOriginalRec, createdAudioInstRec]

theorem ok_attempt_facts (st : DBState) (sid fp : String) (aok : Bool) (s : SongRec)
    (hs : findSong st sid = some s) :
    songStatus (process_song_task st sid fp .ok aok).2 sid
        = some SongStatus.ready.value ∧
    (aok = false → (process_song_task st sid fp .ok aok).2.assets = st.assets) ∧
    (aok = true → SyncMediaAssetService.has_required_assets
        (process_song_task st sid fp .ok aok).2.assets sid = true) := by
  unfold process_song_task
  rw [hs]
  have hst1 : findSong { st with songs := updateFirstSong st.songs sid (fun t =>
      { t with status := SongStatus.processing.value }) } sid
      = some { s with status := SongStatus.processing.value } := by
    rw [findSong_set_songs st sid (fun t =>
      { t with status := SongStatus.processing.value }) (fun t => rfl), hs]
    rfl
  have h2 : findSong (create_media_assets_step
      { st with songs := updateFirstSong st.songs sid (fun t =>
        { t with status := SongStatus.processing.value }) } sid
      (generate_output_paths sid fp) aok).2 sid
      = some { s with status := SongStatus.processing.value } := by
    rw [findSong_create_step]
    exact hst1
  dsimp only
  rw [h2]
  refine ⟨?_, ?_, ?_⟩
  · unfold songStatus
    rw [findSong_set_songs _ sid (fun t =>
      { t with status := SongStatus.ready.value }) (fun t => rfl), h2]
    rfl
  · intro ha
    subst ha
    rfl
  · intro ha
    subst ha
    rw [has_required_assets_iff]
    exact create_media_assets_for_song_mem _ sid _ _ _ _ _ _

theorem process_task_presence (st : DBState) (sid fp : String) (ev : TaskEvent)
    (aok : Bool) (hs : (findSong st sid).isSome = true) :
    (findSong (process_song_task st sid fp ev aok).2 sid).isSome = true := by
  obtain ⟨s, hs2⟩ := Option.isSome_iff_exists.mp hs
  cases ev with
  | ok => exact songStatus_isSome _ _ _ (ok_attempt_facts st sid fp aok s hs2).1
  | raiseExc m2 =>
    exact songStatus_isSome _ _ _
      (failed_attempt_facts st sid fp m2 (.raiseExc m2) aok s hs2 rfl)
  | softTimeout =>
    exact songStatus_isSome _ _ _
      (failed_attempt_facts st sid fp "Processing timeout" .softTimeout aok s hs2 rfl)

theorem process_task_error_failed (st : DBState) (sid fp : String) (ev : TaskEvent)
    (aok : Bool) (m : String)
    (herr : (process_song_task st sid fp ev aok).1 = .error m) :
    songStatus (process_song_task st sid fp ev aok).2 sid
      = some SongStatus.failed.value := by
  cases hf : findSong st sid with
  | none =>
    exfalso
    unfold process_song_task at herr
    rw [hf] at herr
    exact absurd herr (by simp)
  | some s =>
    cases ev with
    | ok =>
      exfalso
      unfold process_song_task at herr
      rw [hf] at herr
      exact absurd herr (by simp)
    | softTimeout =>
      exfalso
      unfold process_song_task at herr
      rw [hf] at herr
      exact absurd herr (by simp)
    | raiseExc m2 =>
      exact failed_attempt_facts st sid fp m2 (.raiseExc m2) aok s hf rfl

end NebulaKTV

namespace NebulaKTV

/-- A sample store with one `PENDING` song carrying prior metadata and an
empty asset registry. -/
def sampleState : DBState :=
  { songs := [{ id := "song-1", status := SongStatus.pending.value,
                meta_json := some [("bpm", MetaVal.num 120)] }],
    assets := [] }

/-- The song row of `sampleState`. -/
def sampleSong : SongRec :=
  { id := "song-1", status := SongStatus.pending.value,
    meta_json := some [("bpm", MetaVal.num 120)] }

/-- C10: invoking the processing job with a song id that has no record
returns a failure outcome (`success = false`, `error = "Song not found"`)
WITHOUT raising — hence the job is not retried — and leaves the entire store
(every song's status and the asset registry) unchanged. -/
theorem process_song_task_missing_song (st : DBState) (song_id file_path : String)
    (ev : TaskEvent) (assetsOk : Bool) (h : findSong st song_id = none) :
    process_song_task st song_id file_path ev assetsOk
      = (.ok { success := false, song_id := song_id, status := none,
               assets_created := none, output_paths := none,
               error := some "Song not found", message := none }, st) := by
  unfold process_song_task
  rw [h]

/-- Witness for C10 on the empty store. -/
theorem process_song_task_missing_song_witness :
    process_song_task { songs := [], assets := [] } "song-9" "/m/v.mp4" .ok true
      = (.ok { success := false, song_id := "song-9", status := none,
               assets_created := none, output_paths := none,
               error := some "Song not found", message := none },
         { songs := [], assets := [] }) :=
  process_song_task_missing_song { songs := [], assets := [] } "song-9" "/m/v.mp4"
    .ok true rfl

/-- Counterexample to C1: when the asset-creation step fails internally
(`_create_media_assets` returns `False`), the job still transitions the song
to `READY` — it logs a warning and continues — and the completeness
predicate is false for the song at that moment.  The task never evaluates
`has_required_assets` before writing `READY`. -/
theorem ready_without_required_assets :
    songStatus (process_song_task sampleState "song-1" "/media/songs/test.mp4"
        .ok false).2 "song-1" = some "READY" ∧
    SyncMediaAssetService.has_required_assets
        (process_song_task sampleState "song-1" "/media/songs/test.mp4"
          .ok false).2.assets "song-1" = false := ⟨rfl, rfl⟩

/-- C1 (amended): the job writes `READY` unconditionally at the end of a
successful run; when the asset-creation step succeeds, the registry does
contain every mandatory kind for the song at the moment `READY` is written,
so the completeness predicate holds — but it is never consulted, and a run
whose asset creation fails still ends `READY` (see the counterexample). -/
theorem ready_run_has_required_assets (st : DBState) (sid fp : String)
    (s : SongRec) (hs : findSong st sid = some s) :
    songStatus (process_song_task st sid fp .ok true).2 sid
        = some SongStatus.ready.value ∧
    SyncMediaAssetService.has_required_assets
        (process_song_task st sid fp .ok true).2.assets sid = true := by
  have h := ok_attempt_facts st sid fp true s hs
  exact ⟨h.1, h.2.2 rfl⟩

/-- Witness for C1 (amended) on the sample store. -/
theorem ready_run_has_required_assets_witness :
    songStatus (process_song_task sampleState "song-1" "/media/songs/test.mp4"
        .ok true).2 "song-1" = some SongStatus.ready.value ∧
    SyncMediaAssetService.has_required_assets
        (process_song_task sampleState "song-1" "/media/songs/test.mp4"
          .ok true).2.assets "song-1" = true :=
  ready_run_has_required_assets sampleState "song-1" "/media/songs/test.mp4"
    sampleSong rfl

end NebulaKTV

namespace NebulaKTV

/-- A store with one `PENDING` song whose `meta_json` is `NULL` — the only
shape for which `_mark_song_failed`'s error write is actually flushed. -/
def nullMetaState : DBState :=
  { songs := [{ id := "song-2", status := SongStatus.pending.value,
                meta_json := none }],
    assets := [] }

/-- C2 (code bug): the claim states the spec's hard invariant — also asserted
by the repository's own property tests (`test_error_status.py`, Property 11)
and by `_mark_song_failed`'s own comment — but the code does not deliver it.
`meta_json` is a plain `Column(JSONB)` with no `MutableDict` wrapper and no
`flag_modified` call, so the in-place mutation
`song.meta_json["error"] = error_message` is not change-tracked and
`db.commit()` flushes only the `status` assignment.  On the default store
contents (songs are created with `meta_json={}`, which is non-NULL), a
failing run therefore leaves the song `FAILED` with NO `error` key at all,
while prior keys survive only because nothing is written; the key is
persisted only in the `meta_json IS NULL` case, where the attribute
assignment `song.meta_json = {}` marks the column dirty. -/
theorem failed_song_error_key_not_persisted :
    songStatus (process_song_task sampleState "song-1" "/m/t.mp4"
        (.raiseExc "disk full") true).2 "song-1" = some "FAILED" ∧
    songMetaGet (process_song_task sampleState "song-1" "/m/t.mp4"
        (.raiseExc "disk full") true).2 "song-1" "error" = none ∧
    songMetaGet (process_song_task sampleState "song-1" "/m/t.mp4"
        (.raiseExc "disk full") true).2 "song-1" "bpm" = some (MetaVal.num 120) ∧
    songMetaGet (process_song_task nullMetaState "song-2" "/m/t.mp4"
        (.raiseExc "disk full") true).2 "song-2" "error"
        = some (MetaVal.str "disk full") :=
  ⟨rfl, rfl, rfl, rfl⟩

/-- Counterexample to C3: with a transient failure on the first attempt and
success on the retry, the observable statuses at the attempt boundaries are
`FAILED` then `READY` — an observer reading the song between the first
attempt and the terminal outcome sees `FAILED`, not `PROCESSING`, because
the task marks the song failed BEFORE re-raising for retry. -/
theorem failed_visible_between_attempts :
    (celery_run sampleState "song-1" "/m/t.mp4"
        [(.raiseExc "disk full", true), (.ok, true)] 3).map
        (fun st => songStatus st "song-1")
      = [some "FAILED", some "READY"] := rfl

/-- C3 (amended): at every non-terminal attempt boundary (an attempt after
which a retry still occurs), the observable status is `FAILED` — each failed
attempt writes `FAILED` with the error recorded before the retry, and the
next attempt overwrites it with `PROCESSING`; `FAILED` is thus visible
between attempts rather than only at terminal outcomes. -/
theorem non_terminal_attempt_shows_failed (st : DBState) (sid fp : String)
    (plan : List (TaskEvent × Bool)) (retries : Nat)
    (hs : (findSong st sid).isSome = true) :
    ∀ s ∈ (celery_run st sid fp plan retries).dropLast,
      songStatus s sid = some SongStatus.failed.value := by
  induction plan generalizing st retries with
  | nil => intro s hmem; simp [celery_run] at hmem
  | cons ea rest ih =>
    obtain ⟨ev, aok⟩ := ea
    intro s2 hmem
    rw [celery_run.eq_def] at hmem
    dsimp only at hmem
    split at hmem
    · simp at hmem
    · next m herr =>
      cases retries with
      | zero => simp at hmem
      | succ rl =>
        dsimp only at hmem
        cases htr : celery_run (process_song_task st sid fp ev aok).2 sid fp rest rl with
        | nil =>
          rw [htr] at hmem
          simp at hmem
        | cons t0 ttail =>
          rw [htr, List.dropLast_cons₂] at hmem
          rcases List.mem_cons.mp hmem with rfl | hmem2
          · exact process_task_error_failed st sid fp ev aok m herr
          · have := ih (process_song_task st sid fp ev aok).2 rl
              (process_task_presence st sid fp ev aok hs)
            rw [htr] at this
            exact this s2 hmem2

end NebulaKTV

namespace NebulaKTV

/-- The store visible at the boundary after the first (failed) attempt of
the witness run (the untracked `error`-key write is not flushed, so only the
status changed). -/
def failedBoundaryState : DBState :=
  { songs := [{ id := "song-1", status := "FAILED",
                meta_json := some [("bpm", MetaVal.num 120)] }],
    assets := [] }

/-- Witness for C3 (amended): the non-terminal boundary state of a concrete
retried run shows `FAILED`. -/
theorem non_terminal_attempt_shows_failed_witness :
    songStatus failedBoundaryState "song-1" = some SongStatus.failed.value :=
  non_terminal_attempt_shows_failed sampleState "song-1" "/m/t.mp4"
    [(.raiseExc "disk full", true), (.ok, true)] 3 rfl failedBoundaryState
    (by decide)

end NebulaKTV
